import Mathlib

/-!
Verification development for the Raq.Ai dependency-triggered orchestration
core (`src/doc-gen/workflow_orchestrator.py`, `src/doc-gen/observable.py`,
`src/doc-gen/team.py`, `src/doc-gen/workflow.py`,
`src/Old/_old_workflow_manager.py`).

The Python code is shallowly embedded: the status registry is an
association list with unique keys preserved by updates (mirroring an
insertion-ordered Python dict), subscriptions are records in a list, and
the `ThreadPoolExecutor.submit` calls are modelled as a ghost list of
submit events appended in program order.  `set` is modelled both as a
single sequential function (one `set` call running to completion) and, for
the concurrency claims, as a two-phase thread: the lock-protected
write-and-snapshot section is one atomic step, and the subsequent
evaluation loop is a second step.  Every interleaving of these coarse
steps corresponds to a real fine-grained interleaving of the Python code
(the coarse model only removes schedules, it never adds behaviours), so a
trace exhibited in the model is a genuine trace of the program.
-/

namespace RaqAi

/-- `TaskStatus` enum from `workflow_orchestrator.py` / `observable.py`:
STARTED, PENDING, COMPLETE, ERROR. -/
inductive TaskStatus where
  | started
  | pending
  | complete
  | error
deriving DecidableEq, Repr

/-- `TaskStatusDict`: a Python dict mapping task id to `TaskStatus`,
modelled as an insertion-ordered association list with unique keys. -/
abbrev TaskStatusDict := List (String × TaskStatus)

namespace TaskStatusDict

/-- Python `self._data.get(key, TaskStatus.PENDING)`: lookup defaulting to
PENDING for unknown ids. -/
def get (d : TaskStatusDict) (k : String) : TaskStatus :=
  match d.find? (fun p => p.1 == k) with
  | some p => p.2
  | none => TaskStatus.pending

/-- Python dict assignment `self._data[key] = value`: replace the binding
in place when the key is present, append otherwise. -/
def dictSet (d : TaskStatusDict) (k : String) (v : TaskStatus) : TaskStatusDict :=
  if d.any (fun p => p.1 == k) then
    d.map (fun p => if p.1 == k then (k, v) else p)
  else
    d ++ [(k, v)]

/-- `TaskStatusDict.has_errors`: the task's status (default PENDING) is ERROR. -/
def has_errors (d : TaskStatusDict) (task_id : String) : Bool :=
  get d task_id == TaskStatus.error

/-- `TaskStatusDict.is_completed`: all listed task ids are COMPLETE. -/
def is_completed (d : TaskStatusDict) (task_ids : List String) : Bool :=
  task_ids.all (fun t => get d t == TaskStatus.complete)

/-- `TaskStatusDict.all_complete`: `len(self) > 0 and all(status == COMPLETE
for status in self.values())`. -/
def all_complete (d : TaskStatusDict) : Bool :=
  decide (0 < d.length) && d.all (fun p => p.2 == TaskStatus.complete)

end TaskStatusDict

/-! ## WorkflowOrchestrator (`workflow_orchestrator.py`) -/

/-- A team subscription record of `WorkflowOrchestrator`: keys `team`
(the Team object, compared by identity, modelled as a numeric id),
`agent_ids` (the wait-set) and `triggered`. -/
structure Sub where
  team : Nat
  agent_ids : List String
  triggered : Bool
deriving DecidableEq, Repr

/-- The kind of action submitted to the executor. -/
inductive Action where
  | start
  | stop
deriving DecidableEq, Repr

/-- One `self._executor.submit(self._safe_team_action, sub, action, arg, ...)`
call of the orchestrator, recorded as a ghost event. -/
structure SubmitEvent where
  team : Nat
  action : Action
  agent_ids : List String
deriving DecidableEq, Repr

/-- State of a `WorkflowOrchestrator`: the registry `_data`, the
subscription table `_team_subs`, the ghost list of executor submissions,
and a ghost log of all `set(key, value)` writes in order. -/
structure OrchState where
  data : TaskStatusDict
  team_subs : List Sub
  submitted : List SubmitEvent
  log : List (String × TaskStatus)
deriving DecidableEq, Repr

namespace WorkflowOrchestrator

/-- `WorkflowOrchestrator.subscribe_team`: append a subscription with
`triggered = False`. -/
def subscribe_team (st : OrchState) (team : Nat) (agent_ids : List String) : OrchState :=
  { st with team_subs := st.team_subs ++ [⟨team, agent_ids, false⟩] }

/-- `WorkflowOrchestrator.get`: registry lookup defaulting to PENDING. -/
def get (st : OrchState) (key : String) : TaskStatus :=
  TaskStatusDict.get st.data key

/-- `WorkflowOrchestrator._dependencies_complete`: True when the wait-set
is empty or every member's status (default PENDING) is COMPLETE. -/
def dependencies_complete (sub : Sub) (data : TaskStatusDict) : Bool :=
  if sub.agent_ids.isEmpty then
    true
  else
    sub.agent_ids.all (fun a => TaskStatusDict.get data a == TaskStatus.complete)

/-- The lock-protected marking block inside `WorkflowOrchestrator.set`:
walk `_team_subs` and set `triggered = True` on the first record matching
the fired snapshot copy by team identity and wait-set, then break. -/
def markTriggered (team : Nat) (agent_ids : List String) : List Sub → List Sub
  | [] => []
  | s :: rest =>
    if s.team == team && s.agent_ids == agent_ids then
      { s with triggered := true } :: rest
    else
      s :: markTriggered team agent_ids rest

/-- The evaluation loop of `WorkflowOrchestrator.set`: iterate over the
snapshot `team_subs_copy`; for each not-yet-triggered subscription whose
dependencies are COMPLETE in the snapshot `data_copy`, submit its start
action to the executor and mark the live record triggered. -/
def evalLoop (subsCopy : List Sub) (dataCopy : TaskStatusDict) (st : OrchState) : OrchState :=
  match subsCopy with
  | [] => st
  | sub :: rest =>
    if !sub.triggered && dependencies_complete sub dataCopy then
      let st1 : OrchState :=
        { st with
          submitted := st.submitted ++ [⟨sub.team, Action.start, sub.agent_ids⟩],
          team_subs := markTriggered sub.team sub.agent_ids st.team_subs }
      evalLoop rest dataCopy st1
    else
      evalLoop rest dataCopy st

/-- `WorkflowOrchestrator.set` run sequentially to completion: write the
value under the lock, snapshot the registry and the subscription table,
then run the evaluation loop on the snapshots. -/
def set (st : OrchState) (key : String) (value : TaskStatus) : OrchState :=
  let data1 := TaskStatusDict.dictSet st.data key value
  let st1 : OrchState := { st with data := data1, log := st.log ++ [(key, value)] }
  evalLoop st1.team_subs data1 st1

/-- A sequence of `set` calls applied in order. -/
def applySets (st : OrchState) (calls : List (String × TaskStatus)) : OrchState :=
  match calls with
  | [] => st
  | c :: rest => applySets (set st c.1 c.2) rest

/-- `WorkflowOrchestrator._safe_team_action` for a dispatched action that
raises: the exception is caught, and the snapshot copy `sub` is removed
from `_team_subs` if a record equal to it (team, wait-set AND triggered
flag) is present.  When the action does not raise, nothing happens. -/
def safe_team_action (st : OrchState) (subCopy : Sub) (actionRaises : Bool) : OrchState :=
  if actionRaises then
    if st.team_subs.contains subCopy then
      { st with team_subs := st.team_subs.erase subCopy }
    else
      st
  else
    st

end WorkflowOrchestrator

/-! ## Interleaved execution of `WorkflowOrchestrator.set` calls

`set` holds the lock for the write-and-snapshot section, releases it, and
then runs the evaluation loop over the snapshots (re-taking the lock only
for the short marking block).  We model one `set` call as two atomic
phases: the locked write-and-snapshot, and the evaluation of the snapshot
(submissions plus marking).  Any schedule of these coarse phases is
realizable by the Python code under its fine-grained locking. -/

/-- Progress of one thread executing `WorkflowOrchestrator.set(key, value)`:
before the locked write, holding its snapshots, or finished. -/
inductive ThreadPhase where
  | toWrite
  | toEval (dataCopy : TaskStatusDict) (subsCopy : List Sub)
  | finished
deriving DecidableEq, Repr

/-- One thread performing a `set` call. -/
structure SetThread where
  key : String
  value : TaskStatus
  phase : ThreadPhase
deriving DecidableEq, Repr

namespace WorkflowOrchestrator

/-- Run one atomic phase of a `set`-calling thread against the shared
orchestrator state. -/
def stepThread (st : OrchState) (t : SetThread) : OrchState × SetThread :=
  match t.phase with
  | ThreadPhase.toWrite =>
    let data1 := TaskStatusDict.dictSet st.data t.key t.value
    ({ st with data := data1, log := st.log ++ [(t.key, t.value)] },
     { t with phase := ThreadPhase.toEval data1 st.team_subs })
  | ThreadPhase.toEval dataCopy subsCopy =>
    (evalLoop subsCopy dataCopy st, { t with phase := ThreadPhase.finished })
  | ThreadPhase.finished => (st, t)

/-- Execute the phases of a pool of `set`-calling threads in the order
given by `sched` (a list of thread indices). -/
def runSchedule (st : OrchState) (threads : List SetThread) (sched : List Nat) :
    OrchState × List SetThread :=
  match sched with
  | [] => (st, threads)
  | i :: rest =>
    match threads[i]? with
    | none => runSchedule st threads rest
    | some t =>
      let p := stepThread st t
      runSchedule p.1 (threads.set i p.2) rest

end WorkflowOrchestrator

/-! ## ObservableStore (`observable.py`) -/

/-- A team subscription record of `ObservableStore`: keys `team`,
`agent_ids`, `trigger` (a string: "ready", "all_complete", "any_error", or
anything else), `one_shot` and `triggered`. -/
structure OSub where
  team : Nat
  agent_ids : List String
  trigger : String
  one_shot : Bool
  triggered : Bool
deriving DecidableEq, Repr

/-- The argument of a submitted `ObservableStore` team action:
`start(agent_ids)` or `stop(force)`. -/
inductive OSAction where
  | start (agent_ids : List String)
  | stop (force : Bool)
deriving DecidableEq, Repr

/-- One executor submission made by `ObservableStore.set`. -/
structure OSEvent where
  team : Nat
  action : OSAction
deriving DecidableEq, Repr

/-- State of an `ObservableStore`: registry, subscription table, and the
ghost list of executor submissions. -/
structure OSState where
  data : TaskStatusDict
  team_subs : List OSub
  submitted : List OSEvent
deriving DecidableEq, Repr

namespace ObservableStore

/-- `ObservableStore.subscribe_team(team, agent_ids, trigger, one_shot)`:
append a subscription with `triggered = False`. -/
def subscribe_team (st : OSState) (team : Nat) (agent_ids : List String)
    (trigger : String) (one_shot : Bool) : OSState :=
  { st with team_subs := st.team_subs ++ [⟨team, agent_ids, trigger, one_shot, false⟩] }

/-- `ObservableStore._evaluate_subscription_trigger`: an empty wait-set is
satisfied exactly for the "ready"/"all_complete" triggers; a non-empty
wait-set needs all members COMPLETE ("ready"/"all_complete") or some
member ERROR ("any_error"); unknown triggers are never satisfied. -/
def evaluate_subscription_trigger (sub : OSub) (data : TaskStatusDict) : Bool :=
  if sub.agent_ids.isEmpty then
    sub.trigger == "ready" || sub.trigger == "all_complete"
  else if sub.trigger == "ready" || sub.trigger == "all_complete" then
    sub.agent_ids.all (fun a => TaskStatusDict.get data a == TaskStatus.complete)
  else if sub.trigger == "any_error" then
    sub.agent_ids.any (fun a => TaskStatusDict.get data a == TaskStatus.error)
  else
    false

/-- The one-shot block of `ObservableStore.set`: find the first live record
matching the fired snapshot copy by team and wait-set, mark it triggered,
remove it if it is one-shot, then break. -/
def markAndRemove (team : Nat) (agent_ids : List String) : List OSub → List OSub
  | [] => []
  | s :: rest =>
    if s.team == team && s.agent_ids == agent_ids then
      let s1 : OSub := { s with triggered := true }
      if s1.one_shot then rest else s1 :: rest
    else
      s :: markAndRemove team agent_ids rest

/-- The evaluation loop of `ObservableStore.set`: for every subscription in
the snapshot (the `triggered` flag is never consulted), if its trigger
condition holds, submit `start(agent_ids)` for "ready"/"all_complete"
triggers or `stop(True)` for "any_error", and run the one-shot
mark-and-remove block when the subscription is one-shot. -/
def osEvalLoop (subsCopy : List OSub) (dataCopy : TaskStatusDict) (st : OSState) : OSState :=
  match subsCopy with
  | [] => st
  | sub :: rest =>
    if evaluate_subscription_trigger sub dataCopy then
      let st1 : OSState :=
        if sub.trigger == "ready" || sub.trigger == "all_complete" then
          { st with submitted := st.submitted ++ [⟨sub.team, OSAction.start sub.agent_ids⟩] }
        else if sub.trigger == "any_error" then
          { st with submitted := st.submitted ++ [⟨sub.team, OSAction.stop true⟩] }
        else
          st
      let st2 : OSState :=
        if sub.one_shot then
          { st1 with team_subs := markAndRemove sub.team sub.agent_ids st1.team_subs }
        else
          st1
      osEvalLoop rest dataCopy st2
    else
      osEvalLoop rest dataCopy st

/-- `ObservableStore.set` run sequentially to completion. -/
def set (st : OSState) (key : String) (value : TaskStatus) : OSState :=
  let data1 := TaskStatusDict.dictSet st.data key value
  osEvalLoop st.team_subs data1 { st with data := data1 }

end ObservableStore

/-! ## Team wrapper (`team.py`) -/

/-- Result of one `Team.start(agent_ids)` call: the orchestrator state
after the writes it performed, whether the initial `RuntimeError` guard
fired (team_runner missing), and whether the call re-raised the task
body's exception. -/
structure StartResult where
  state : OrchState
  raisedRuntimeError : Bool
  reraised : Bool
deriving Repr

namespace Team

/-- `Team.start(agent_ids)`: raise `RuntimeError` if the team_runner is
missing; otherwise write STARTED, run the body (`team_runner.start()`,
abstracted by `bodyRaises`), and write COMPLETE on success or ERROR on
failure followed by `raise` (re-raising the body's exception). -/
def start (st : OrchState) (teamId : String) (hasRunner : Bool)
    (agent_ids : List String) (bodyRaises : Bool) : StartResult :=
  if !hasRunner then
    { state := st, raisedRuntimeError := true, reraised := false }
  else
    let st1 := WorkflowOrchestrator.set st teamId TaskStatus.started
    if bodyRaises then
      let st2 := WorkflowOrchestrator.set st1 teamId TaskStatus.error
      { state := st2, raisedRuntimeError := false, reraised := true }
    else
      let st2 := WorkflowOrchestrator.set st1 teamId TaskStatus.complete
      { state := st2, raisedRuntimeError := false, reraised := false }

end Team

/-! ## Phase planners

`WorkflowManager.get_dependency_order` (`src/doc-gen/workflow.py`) and the
batch planner `WorkflowManager.get_execution_phases`
(`src/Old/_old_workflow_manager.py`).  Python raising `ValueError(msg)` is
modelled as `Except.error` carrying the raised payload.  Both loops remove
at least one element per iteration, which we realize with a fuel argument
always called with enough fuel for the worst case. -/

namespace WorkflowManager

/-- Substring test on strings via their character lists (used to state
whether an error message mentions a task id). -/
def listStarts : List Char → List Char → Bool
  | [], _ => true
  | _ :: _, [] => false
  | a :: as, b :: bs => a == b && listStarts as bs

/-- `listInfix n h`: `n` occurs as a contiguous run inside `h`. -/
def listInfix : List Char → List Char → Bool
  | n, [] => n.isEmpty
  | n, h :: t => listStarts n (h :: t) || listInfix n t

/-- `strOccurs needle hay`: the string `needle` occurs inside `hay`. -/
def strOccurs (needle hay : String) : Bool :=
  listInfix needle.toList hay.toList

/-- One team entry of `get_dependency_order`'s `team_deps` map: the team id
and its `depends_on` field (absent or a single upstream id, as the loop's
membership test reads it). -/
abbrev TeamDeps := List (String × Option String)

/-- Lookup in the `team_deps` dict. -/
def lookupDep (team_deps : TeamDeps) (tid : String) : Option String :=
  match team_deps.find? (fun p => p.1 == tid) with
  | some p => p.2
  | none => none

/-- The while-loop of `get_dependency_order`: collect the remaining teams
whose dependency is absent or no longer remaining into a level; raise
`ValueError("Circular dependency detected in workflow")` when no team is
ready; otherwise recurse on the rest. -/
def depOrderLoop (team_deps : TeamDeps) (remaining : List String) : Nat →
    Except String (List (List String))
  | 0 => Except.ok []
  | fuel + 1 =>
    if remaining.isEmpty then
      Except.ok []
    else
      let ready := remaining.filter (fun tid =>
        match lookupDep team_deps tid with
        | none => true
        | some d => !remaining.contains d)
      if ready.isEmpty then
        Except.error "Circular dependency detected in workflow"
      else
        match depOrderLoop team_deps (remaining.filter (fun tid => !ready.contains tid)) fuel with
        | Except.ok levels => Except.ok (ready :: levels)
        | Except.error e => Except.error e

/-- `WorkflowManager.get_dependency_order` (`workflow.py`): topological
levels of the team graph, raising on a cycle. -/
def get_dependency_order (teams : TeamDeps) : Except String (List (List String)) :=
  depOrderLoop teams (teams.map (fun p => p.1)) (teams.map (fun p => p.1)).length

/-- A node of the old batch planner's dependency tree: unique `key`
(`name_index`), team `name`, and the declared dependency names (`None` and
an empty list behave identically, so both are the empty list). -/
structure OldTeam where
  key : String
  name : String
  depends_on : List String
deriving DecidableEq, Repr

/-- `get_execution_phases` dependency check: `dep_name` is completed when
some completed key's tree entry carries that team name. -/
def depCompleted (tree : List OldTeam) (completed : List String) (dep_name : String) : Bool :=
  completed.any (fun ck => tree.any (fun t => t.key == ck && t.name == dep_name))

/-- The ready scan of one planning step of `get_execution_phases`: the
not-yet-completed teams all of whose dependency names are completed. -/
def readyTeams (tree : List OldTeam) (completed : List String) : List OldTeam :=
  tree.filter (fun t =>
    !completed.contains t.key && t.depends_on.all (depCompleted tree completed))

/-- The stranded ids reported by `get_execution_phases`:
`[k for k in dependency_tree.keys() if k not in completed_teams]`. -/
def strandedIds (tree : List OldTeam) (completed : List String) : List String :=
  (tree.filter (fun t => !completed.contains t.key)).map (fun t => t.key)

/-- The while-loop of `WorkflowManager.get_execution_phases`
(`_old_workflow_manager.py`): while some team is not completed, compute the
ready teams; when none is ready, raise
`ValueError(f"Circular dependency or unresolved dependencies for: {remaining}")`
(modelled as `Except.error remaining`) unless nothing actually remains;
otherwise emit the ready set as a phase and mark its keys completed. -/
def phasesLoop (tree : List OldTeam) : List String → Nat →
    Except (List String) (List (List OldTeam))
  | _, 0 => Except.ok []
  | completed, fuel + 1 =>
    if completed.length < tree.length then
      let ready := readyTeams tree completed
      if ready.isEmpty then
        let remaining := strandedIds tree completed
        if remaining.isEmpty then Except.ok [] else Except.error remaining
      else
        match phasesLoop tree (completed ++ ready.map (fun t => t.key)) fuel with
        | Except.ok phases => Except.ok (ready :: phases)
        | Except.error e => Except.error e
    else
      Except.ok []

/-- `WorkflowManager.get_execution_phases` with no resume point. -/
def get_execution_phases (tree : List OldTeam) : Except (List String) (List (List OldTeam)) :=
  phasesLoop tree [] tree.length

end WorkflowManager

/-! ## Helper lemmas -/

namespace TaskStatusDict

theorem get_eq_pending_of_not_mem (d : TaskStatusDict) (id : String)
    (h : ∀ p ∈ d, p.1 ≠ id) : get d id = TaskStatus.pending := by
  unfold get
  have hnone : d.find? (fun p => p.1 == id) = none := by
    rw [List.find?_eq_none]
    intro p hp
    simpa using h p hp
  rw [hnone]

theorem mem_dictSet (d : TaskStatusDict) (k : String) (v : TaskStatus)
    (p : String × TaskStatus) (hp : p ∈ dictSet d k v) : p = (k, v) ∨ p ∈ d := by
  unfold dictSet at hp
  by_cases h : d.any (fun q => q.1 == k)
  · rw [if_pos h] at hp
    rcases List.mem_map.mp hp with ⟨q, hq, hfq⟩
    by_cases hk : q.1 == k
    · left; rw [if_pos hk] at hfq; exact hfq.symm
    · right; rw [if_neg hk] at hfq; exact hfq ▸ hq
  · rw [if_neg h] at hp
    rcases List.mem_append.mp hp with h1 | h2
    · right; exact h1
    · left; simpa using h2

theorem dictSet_ne_nil (d : TaskStatusDict) (k : String) (v : TaskStatus) :
    dictSet d k v ≠ [] := by
  unfold dictSet
  by_cases h : d.any (fun q => q.1 == k)
  · rw [if_pos h]
    cases d with
    | nil => simp at h
    | cons p rest => simp
  · rw [if_neg h]
    simp

theorem get_dictSet_self (d : TaskStatusDict) (k : String) (v : TaskStatus) :
    get (dictSet d k v) k = v := by
  unfold get dictSet
  by_cases h : d.any (fun q => q.1 == k)
  · induction d with
    | nil => simp at h
    | cons p rest ih =>
      rw [if_pos h]
      by_cases hk : p.1 == k
      · simp [List.find?, hk]
      · have hrest : rest.any (fun q => q.1 == k) = true := by
          rcases List.any_eq_true.mp h with ⟨q, hq, hqk⟩
          rcases List.mem_cons.mp hq with rfl | hq'
          · exact absurd hqk hk
          · exact List.any_eq_true.mpr ⟨q, hq', hqk⟩
        have := ih hrest
        rw [if_pos hrest] at this
        simpa [List.find?, hk] using this
  · rw [if_neg h]
    have hnone : d.find? (fun p => p.1 == k) = none := by
      rw [List.find?_eq_none]
      exact fun p hp hpk => h (List.any_eq_true.mpr ⟨p, hp, hpk⟩)
    rw [List.find?_append, hnone]
    simp [List.find?]

end TaskStatusDict

namespace WorkflowOrchestrator

theorem evalLoop_data (subsCopy : List Sub) (dataCopy : TaskStatusDict) (st : OrchState) :
    (evalLoop subsCopy dataCopy st).data = st.data := by
  induction subsCopy generalizing st with
  | nil => rfl
  | cons sub rest ih =>
    unfold evalLoop
    by_cases h : (!sub.triggered && dependencies_complete sub dataCopy) = true
    · rw [if_pos h]; rw [ih]
    · rw [if_neg h]; exact ih st

theorem evalLoop_log (subsCopy : List Sub) (dataCopy : TaskStatusDict) (st : OrchState) :
    (evalLoop subsCopy dataCopy st).log = st.log := by
  induction subsCopy generalizing st with
  | nil => rfl
  | cons sub rest ih =>
    unfold evalLoop
    by_cases h : (!sub.triggered && dependencies_complete sub dataCopy) = true
    · rw [if_pos h]; rw [ih]
    · rw [if_neg h]; exact ih st

theorem evalLoop_submitted_mono (subsCopy : List Sub) (dataCopy : TaskStatusDict)
    (st : OrchState) (e : SubmitEvent) (he : e ∈ st.submitted) :
    e ∈ (evalLoop subsCopy dataCopy st).submitted := by
  induction subsCopy generalizing st with
  | nil => exact he
  | cons sub rest ih =>
    unfold evalLoop
    by_cases h : (!sub.triggered && dependencies_complete sub dataCopy) = true
    · rw [if_pos h]
      exact ih _ (List.mem_append.mpr (Or.inl he))
    · rw [if_neg h]
      exact ih st he

theorem evalLoop_submitted_src (subsCopy : List Sub) (dataCopy : TaskStatusDict)
    (st : OrchState) (e : SubmitEvent)
    (he : e ∈ (evalLoop subsCopy dataCopy st).submitted) :
    e ∈ st.submitted ∨
      ∃ sub ∈ subsCopy, sub.triggered = false ∧
        dependencies_complete sub dataCopy = true ∧
        e = ⟨sub.team, Action.start, sub.agent_ids⟩ := by
  induction subsCopy generalizing st with
  | nil => exact Or.inl he
  | cons sub rest ih =>
    unfold evalLoop at he
    by_cases h : (!sub.triggered && dependencies_complete sub dataCopy) = true
    · rw [if_pos h] at he
      rcases ih _ he with hin | ⟨s, hs, h1, h2, h3⟩
      · rcases List.mem_append.mp hin with h1 | h2
        · exact Or.inl h1
        · refine Or.inr ⟨sub, List.mem_cons_self _ _, ?_, ?_, ?_⟩
          · simpa using (Bool.and_elim_left h)
          · exact Bool.and_elim_right h
          · simpa using h2
      · exact Or.inr ⟨s, List.mem_cons_of_mem _ hs, h1, h2, h3⟩
    · rw [if_neg h] at he
      rcases ih st he with hin | ⟨s, hs, h1, h2, h3⟩
      · exact Or.inl hin
      · exact Or.inr ⟨s, List.mem_cons_of_mem _ hs, h1, h2, h3⟩

theorem evalLoop_fires (subsCopy : List Sub) (dataCopy : TaskStatusDict)
    (st : OrchState) (sub : Sub) (hmem : sub ∈ subsCopy)
    (htrig : sub.triggered = false)
    (hdeps : dependencies_complete sub dataCopy = true) :
    SubmitEvent.mk sub.team Action.start sub.agent_ids
      ∈ (evalLoop subsCopy dataCopy st).submitted := by
  induction subsCopy generalizing st with
  | nil => cases hmem
  | cons s rest ih =>
    rcases List.mem_cons.mp hmem with rfl | hmem'
    · unfold evalLoop
      rw [if_pos (by simp [htrig, hdeps])]
      exact evalLoop_submitted_mono _ _ _ _
        (List.mem_append.mpr (Or.inr (List.mem_singleton.mpr rfl)))
    · unfold evalLoop
      by_cases h : (!s.triggered && dependencies_complete s dataCopy) = true
      · rw [if_pos h]; exact ih _ hmem'
      · rw [if_neg h]; exact ih st hmem'

theorem set_data (st : OrchState) (k : String) (v : TaskStatus) :
    (set st k v).data = TaskStatusDict.dictSet st.data k v := by
  unfold set
  rw [evalLoop_data]

theorem set_log (st : OrchState) (k : String) (v : TaskStatus) :
    (set st k v).log = st.log ++ [(k, v)] := by
  unfold set
  rw [evalLoop_log]

theorem get_set_self (st : OrchState) (k : String) (v : TaskStatus) :
    get (set st k v) k = v := by
  unfold get
  rw [set_data]
  exact TaskStatusDict.get_dictSet_self _ _ _

theorem evalLoop_count_mono (subsCopy : List Sub) (dataCopy : TaskStatusDict)
    (st : OrchState) (e : SubmitEvent) :
    st.submitted.count e ≤ (evalLoop subsCopy dataCopy st).submitted.count e := by
  induction subsCopy generalizing st with
  | nil => exact Nat.le_refl _
  | cons sub rest ih =>
    unfold evalLoop
    by_cases h : (!sub.triggered && dependencies_complete sub dataCopy) = true
    · rw [if_pos h]
      refine Nat.le_trans ?_ (ih _)
      rw [List.count_append]
      exact Nat.le_add_right _ _
    · rw [if_neg h]
      exact ih st

theorem evalLoop_count_src (subsCopy : List Sub) (dataCopy : TaskStatusDict)
    (st : OrchState) (e : SubmitEvent)
    (h : st.submitted.count e < (evalLoop subsCopy dataCopy st).submitted.count e) :
    ∃ sub ∈ subsCopy, sub.triggered = false ∧
      dependencies_complete sub dataCopy = true ∧
      e = ⟨sub.team, Action.start, sub.agent_ids⟩ := by
  induction subsCopy generalizing st with
  | nil => exact absurd h (Nat.lt_irrefl _)
  | cons sub rest ih =>
    unfold evalLoop at h
    by_cases hf : (!sub.triggered && dependencies_complete sub dataCopy) = true
    · rw [if_pos hf] at h
      by_cases he : e = ⟨sub.team, Action.start, sub.agent_ids⟩
      · exact ⟨sub, List.mem_cons_self _ _,
          by simpa using (Bool.and_elim_left hf), Bool.and_elim_right hf, he⟩
      · have hz : List.count e [(⟨sub.team, Action.start, sub.agent_ids⟩ : SubmitEvent)] = 0 := by
          simp [List.count_singleton]
          intro hc
          exact absurd hc.symm he
        have h' : ({ st with
            submitted := st.submitted ++ [⟨sub.team, Action.start, sub.agent_ids⟩],
            team_subs := markTriggered sub.team sub.agent_ids st.team_subs } :
              OrchState).submitted.count e =
            st.submitted.count e := by
          simp [List.count_append, hz]
        rcases ih _ (by rw [← h'] at h; exact h) with ⟨s, hs, h1, h2, h3⟩
        exact ⟨s, List.mem_cons_of_mem _ hs, h1, h2, h3⟩
    · rw [if_neg hf] at h
      rcases ih st h with ⟨s, hs, h1, h2, h3⟩
      exact ⟨s, List.mem_cons_of_mem _ hs, h1, h2, h3⟩

theorem set_count_src (st : OrchState) (k : String) (v : TaskStatus) (e : SubmitEvent)
    (h : st.submitted.count e < ((set st k v).submitted.count e)) :
    ∃ sub ∈ st.team_subs, sub.triggered = false ∧
      dependencies_complete sub (TaskStatusDict.dictSet st.data k v) = true ∧
      e = ⟨sub.team, Action.start, sub.agent_ids⟩ := by
  unfold set at h
  exact evalLoop_count_src st.team_subs (TaskStatusDict.dictSet st.data k v)
    { st with data := TaskStatusDict.dictSet st.data k v, log := st.log ++ [(k, v)] } e h

theorem set_fires (st : OrchState) (k : String) (v : TaskStatus) (sub : Sub)
    (hmem : sub ∈ st.team_subs) (htrig : sub.triggered = false)
    (hdeps : dependencies_complete sub (TaskStatusDict.dictSet st.data k v) = true) :
    SubmitEvent.mk sub.team Action.start sub.agent_ids ∈ (set st k v).submitted := by
  unfold set
  exact evalLoop_fires _ _ _ sub hmem htrig hdeps

end WorkflowOrchestrator

namespace ObservableStore

theorem osEvalLoop_submitted_mono (subsCopy : List OSub) (dataCopy : TaskStatusDict)
    (st : OSState) (e : OSEvent) (he : e ∈ st.submitted) :
    e ∈ (osEvalLoop subsCopy dataCopy st).submitted := by
  induction subsCopy generalizing st with
  | nil => exact he
  | cons sub rest ih =>
    unfold osEvalLoop
    by_cases h : evaluate_subscription_trigger sub dataCopy = true
    · rw [if_pos h]
      apply ih
      by_cases h1 : (sub.trigger == "ready" || sub.trigger == "all_complete") = true
      · by_cases h2 : sub.one_shot <;>
          simp [h1, h2, List.mem_append, he]
      · by_cases h3 : (sub.trigger == "any_error") = true <;>
          by_cases h2 : sub.one_shot <;>
            simp [h1, h2, h3, List.mem_append, he]
    · rw [if_neg h]
      exact ih st he

theorem osEvalLoop_fires_start (subsCopy : List OSub) (dataCopy : TaskStatusDict)
    (st : OSState) (sub : OSub) (hmem : sub ∈ subsCopy)
    (heval : evaluate_subscription_trigger sub dataCopy = true)
    (htrig : sub.trigger = "ready" ∨ sub.trigger = "all_complete") :
    OSEvent.mk sub.team (OSAction.start sub.agent_ids)
      ∈ (osEvalLoop subsCopy dataCopy st).submitted := by
  induction subsCopy generalizing st with
  | nil => cases hmem
  | cons s rest ih =>
    rcases List.mem_cons.mp hmem with rfl | hmem'
    · unfold osEvalLoop
      rw [if_pos heval]
      apply osEvalLoop_submitted_mono
      have h1 : (sub.trigger == "ready" || sub.trigger == "all_complete") = true := by
        rcases htrig with h | h <;> simp [h]
      by_cases h2 : sub.one_shot <;> simp [h1, h2, List.mem_append]
    · unfold osEvalLoop
      by_cases h : evaluate_subscription_trigger s dataCopy = true
      · rw [if_pos h]; exact ih _ hmem'
      · rw [if_neg h]; exact ih st hmem'

theorem osEvalLoop_fires_stop (subsCopy : List OSub) (dataCopy : TaskStatusDict)
    (st : OSState) (sub : OSub) (hmem : sub ∈ subsCopy)
    (heval : evaluate_subscription_trigger sub dataCopy = true)
    (htrig : sub.trigger = "any_error") :
    OSEvent.mk sub.team (OSAction.stop true)
      ∈ (osEvalLoop subsCopy dataCopy st).submitted := by
  induction subsCopy generalizing st with
  | nil => cases hmem
  | cons s rest ih =>
    rcases List.mem_cons.mp hmem with rfl | hmem'
    · unfold osEvalLoop
      rw [if_pos heval]
      apply osEvalLoop_submitted_mono
      have h1 : (sub.trigger == "ready" || sub.trigger == "all_complete") = false := by
        simp [htrig]
      have h3 : (sub.trigger == "any_error") = true := by simp [htrig]
      by_cases h2 : sub.one_shot <;> simp [h1, h2, h3, List.mem_append]
    · unfold osEvalLoop
      by_cases h : evaluate_subscription_trigger s dataCopy = true
      · rw [if_pos h]; exact ih _ hmem'
      · rw [if_neg h]; exact ih st hmem'

theorem osEvalLoop_submitted_src (subsCopy : List OSub) (dataCopy : TaskStatusDict)
    (st : OSState) (e : OSEvent)
    (he : e ∈ (osEvalLoop subsCopy dataCopy st).submitted) :
    e ∈ st.submitted ∨
      ∃ sub ∈ subsCopy, evaluate_subscription_trigger sub dataCopy = true ∧
        (((sub.trigger = "ready" ∨ sub.trigger = "all_complete") ∧
            e = ⟨sub.team, OSAction.start sub.agent_ids⟩) ∨
          (sub.trigger = "any_error" ∧ e = ⟨sub.team, OSAction.stop true⟩)) := by
  induction subsCopy generalizing st with
  | nil => exact Or.inl he
  | cons sub rest ih =>
    unfold osEvalLoop at he
    by_cases h : evaluate_subscription_trigger sub dataCopy = true
    · rw [if_pos h] at he
      rcases ih _ he with hin | ⟨s, hs, h1, h2⟩
      · by_cases hr : (sub.trigger == "ready" || sub.trigger == "all_complete") = true
        · by_cases h2 : sub.one_shot <;> simp [hr, h2] at hin <;>
          · rcases hin with hin | rfl
            · exact Or.inl hin
            · refine Or.inr ⟨sub, List.mem_cons_self _ _, h, Or.inl ⟨?_, rfl⟩⟩
              rcases Bool.or_eq_true_iff.mp hr with hx | hx
              · exact Or.inl (by simpa using hx)
              · exact Or.inr (by simpa using hx)
        · by_cases ha : (sub.trigger == "any_error") = true
          · by_cases h2 : sub.one_shot <;> simp [hr, ha, h2] at hin <;>
            · rcases hin with hin | rfl
              · exact Or.inl hin
              · exact Or.inr ⟨sub, List.mem_cons_self _ _, h, Or.inr ⟨by simpa using ha, rfl⟩⟩
          · by_cases h2 : sub.one_shot <;> simp [hr, ha, h2] at hin <;> exact Or.inl hin
      · exact Or.inr ⟨s, List.mem_cons_of_mem _ hs, h1, h2⟩
    · rw [if_neg h] at he
      rcases ih st he with hin | ⟨s, hs, h1, h2⟩
      · exact Or.inl hin
      · exact Or.inr ⟨s, List.mem_cons_of_mem _ hs, h1, h2⟩

/-- The events appended to the submission list when one subscription fires. -/
def osNewEvents (sub : OSub) : List OSEvent :=
  if sub.trigger == "ready" || sub.trigger == "all_complete" then
    [⟨sub.team, OSAction.start sub.agent_ids⟩]
  else if sub.trigger == "any_error" then
    [⟨sub.team, OSAction.stop true⟩]
  else
    []

theorem osEvalLoop_cons_eq (sub : OSub) (rest : List OSub) (d : TaskStatusDict)
    (st : OSState) :
    osEvalLoop (sub :: rest) d st =
      if evaluate_subscription_trigger sub d then
        osEvalLoop rest d
          { st with
            submitted := st.submitted ++ osNewEvents sub,
            team_subs :=
              if sub.one_shot then markAndRemove sub.team sub.agent_ids st.team_subs
              else st.team_subs }
      else osEvalLoop rest d st := by
  conv_lhs => rw [osEvalLoop]
  by_cases hf : evaluate_subscription_trigger sub d = true
  · rw [if_pos hf, if_pos hf]
    unfold osNewEvents
    by_cases hr : (sub.trigger == "ready" || sub.trigger == "all_complete") = true <;>
      by_cases ha : (sub.trigger == "any_error") = true <;>
        by_cases h2 : sub.one_shot <;>
          simp [hr, ha, h2]
  · rw [if_neg hf, if_neg hf]

theorem osEvalLoop_count_mono (subsCopy : List OSub) (dataCopy : TaskStatusDict)
    (st : OSState) (e : OSEvent) :
    st.submitted.count e ≤ (osEvalLoop subsCopy dataCopy st).submitted.count e := by
  induction subsCopy generalizing st with
  | nil => exact Nat.le_refl _
  | cons sub rest ih =>
    rw [osEvalLoop_cons_eq]
    by_cases hf : evaluate_subscription_trigger sub dataCopy = true
    · rw [if_pos hf]
      refine Nat.le_trans ?_ (ih _)
      simp only [List.count_append]
      exact Nat.le_add_right _ _
    · rw [if_neg hf]
      exact ih st

theorem osEvalLoop_count_fires (subsCopy : List OSub) (dataCopy : TaskStatusDict)
    (st : OSState) (sub : OSub) (hmem : sub ∈ subsCopy)
    (heval : evaluate_subscription_trigger sub dataCopy = true)
    (htrig : sub.trigger = "ready" ∨ sub.trigger = "all_complete") :
    st.submitted.count ⟨sub.team, OSAction.start sub.agent_ids⟩ + 1 ≤
      (osEvalLoop subsCopy dataCopy st).submitted.count
        ⟨sub.team, OSAction.start sub.agent_ids⟩ := by
  induction subsCopy generalizing st with
  | nil => cases hmem
  | cons s rest ih =>
    rw [osEvalLoop_cons_eq]
    rcases List.mem_cons.mp hmem with rfl | hmem'
    · rw [if_pos heval]
      refine Nat.le_trans ?_ (osEvalLoop_count_mono _ _ _ _)
      have hev : osNewEvents sub = [⟨sub.team, OSAction.start sub.agent_ids⟩] := by
        unfold osNewEvents
        rcases htrig with h | h <;> simp [h]
      simp [hev, List.count_append]
    · by_cases hf : evaluate_subscription_trigger s dataCopy = true
      · rw [if_pos hf]
        refine Nat.le_trans ?_ (ih _ hmem')
        simp only [List.count_append]
        omega
      · rw [if_neg hf]
        exact ih st hmem'

theorem osEvalLoop_count_src (subsCopy : List OSub) (dataCopy : TaskStatusDict)
    (st : OSState) (e : OSEvent)
    (h : st.submitted.count e < (osEvalLoop subsCopy dataCopy st).submitted.count e) :
    ∃ sub ∈ subsCopy, evaluate_subscription_trigger sub dataCopy = true ∧
      (((sub.trigger = "ready" ∨ sub.trigger = "all_complete") ∧
          e = ⟨sub.team, OSAction.start sub.agent_ids⟩) ∨
        (sub.trigger = "any_error" ∧ e = ⟨sub.team, OSAction.stop true⟩)) := by
  induction subsCopy generalizing st with
  | nil => exact absurd h (Nat.lt_irrefl _)
  | cons sub rest ih =>
    rw [osEvalLoop_cons_eq] at h
    by_cases hf : evaluate_subscription_trigger sub dataCopy = true
    · rw [if_pos hf] at h
      by_cases he : e ∈ osNewEvents sub
      · refine ⟨sub, List.mem_cons_self _ _, hf, ?_⟩
        unfold osNewEvents at he
        by_cases hr : (sub.trigger == "ready" || sub.trigger == "all_complete") = true
        · rw [if_pos hr] at he
          refine Or.inl ⟨?_, by simpa using he⟩
          rcases Bool.or_eq_true_iff.mp hr with hx | hx
          · exact Or.inl (by simpa using hx)
          · exact Or.inr (by simpa using hx)
        · rw [if_neg hr] at he
          by_cases ha : (sub.trigger == "any_error") = true
          · rw [if_pos ha] at he
            exact Or.inr ⟨by simpa using ha, by simpa using he⟩
          · rw [if_neg ha] at he
            cases he
      · have hz : (osNewEvents sub).count e = 0 := List.count_eq_zero.mpr he
        have h' : ({ st with
            submitted := st.submitted ++ osNewEvents sub,
            team_subs :=
              if sub.one_shot then markAndRemove sub.team sub.agent_ids st.team_subs
              else st.team_subs } : OSState).submitted.count e = st.submitted.count e := by
          simp [List.count_append, hz]
        rcases ih _ (h'.symm ▸ h) with ⟨s, hs, h1, h2⟩
        exact ⟨s, List.mem_cons_of_mem _ hs, h1, h2⟩
    · rw [if_neg hf] at h
      rcases ih st h with ⟨s, hs, h1, h2⟩
      exact ⟨s, List.mem_cons_of_mem _ hs, h1, h2⟩

theorem osEvalLoop_subs_unchanged (subsCopy : List OSub) (dataCopy : TaskStatusDict)
    (st : OSState) (h : ∀ s ∈ subsCopy, s.one_shot = false) :
    (osEvalLoop subsCopy dataCopy st).team_subs = st.team_subs := by
  induction subsCopy generalizing st with
  | nil => rfl
  | cons sub rest ih =>
    unfold osEvalLoop
    have hsub : sub.one_shot = false := h sub (List.mem_cons_self _ _)
    have hrest : ∀ s ∈ rest, s.one_shot = false := fun s hs => h s (List.mem_cons_of_mem _ hs)
    by_cases he : evaluate_subscription_trigger sub dataCopy = true
    · rw [if_pos he]
      rw [ih _ hrest]
      by_cases hr : (sub.trigger == "ready" || sub.trigger == "all_complete") = true <;>
        by_cases ha : (sub.trigger == "any_error") = true <;>
          simp [hr, ha, hsub]
    · rw [if_neg he]
      exact ih st hrest

theorem osSet_fires_start (os : OSState) (k : String) (v : TaskStatus) (sub : OSub)
    (hmem : sub ∈ os.team_subs)
    (heval : evaluate_subscription_trigger sub (TaskStatusDict.dictSet os.data k v) = true)
    (htrig : sub.trigger = "ready" ∨ sub.trigger = "all_complete") :
    OSEvent.mk sub.team (OSAction.start sub.agent_ids) ∈ (set os k v).submitted := by
  unfold set
  exact osEvalLoop_fires_start _ _ _ sub hmem heval htrig

theorem osSet_fires_stop (os : OSState) (k : String) (v : TaskStatus) (sub : OSub)
    (hmem : sub ∈ os.team_subs)
    (heval : evaluate_subscription_trigger sub (TaskStatusDict.dictSet os.data k v) = true)
    (htrig : sub.trigger = "any_error") :
    OSEvent.mk sub.team (OSAction.stop true) ∈ (set os k v).submitted := by
  unfold set
  exact osEvalLoop_fires_stop _ _ _ sub hmem heval htrig

theorem osSet_count_fires (os : OSState) (k : String) (v : TaskStatus) (sub : OSub)
    (hmem : sub ∈ os.team_subs)
    (heval : evaluate_subscription_trigger sub (TaskStatusDict.dictSet os.data k v) = true)
    (htrig : sub.trigger = "ready" ∨ sub.trigger = "all_complete") :
    os.submitted.count ⟨sub.team, OSAction.start sub.agent_ids⟩ + 1 ≤
      (set os k v).submitted.count ⟨sub.team, OSAction.start sub.agent_ids⟩ := by
  unfold set
  exact osEvalLoop_count_fires os.team_subs (TaskStatusDict.dictSet os.data k v)
    { os with data := TaskStatusDict.dictSet os.data k v } sub hmem heval htrig

theorem osSet_count_src (os : OSState) (k : String) (v : TaskStatus) (e : OSEvent)
    (h : os.submitted.count e < (set os k v).submitted.count e) :
    ∃ sub ∈ os.team_subs,
      evaluate_subscription_trigger sub (TaskStatusDict.dictSet os.data k v) = true ∧
      (((sub.trigger = "ready" ∨ sub.trigger = "all_complete") ∧
          e = ⟨sub.team, OSAction.start sub.agent_ids⟩) ∨
        (sub.trigger = "any_error" ∧ e = ⟨sub.team, OSAction.stop true⟩)) := by
  unfold set at h
  exact osEvalLoop_count_src os.team_subs (TaskStatusDict.dictSet os.data k v)
    { os with data := TaskStatusDict.dictSet os.data k v } e h

theorem osSet_subs_unchanged (os : OSState) (k : String) (v : TaskStatus)
    (h : ∀ s ∈ os.team_subs, s.one_shot = false) :
    (set os k v).team_subs = os.team_subs := by
  unfold set
  exact osEvalLoop_subs_unchanged os.team_subs (TaskStatusDict.dictSet os.data k v)
    { os with data := TaskStatusDict.dictSet os.data k v } h

end ObservableStore

namespace WorkflowManager

theorem depOrderLoop_error_msg (fuel : Nat) (team_deps : TeamDeps)
    (remaining : List String) (msg : String)
    (h : depOrderLoop team_deps remaining fuel = Except.error msg) :
    msg = "Circular dependency detected in workflow" := by
  induction fuel generalizing remaining with
  | zero => exact Except.noConfusion h
  | succ fuel' ih =>
    unfold depOrderLoop at h
    by_cases he : remaining.isEmpty = true
    · rw [if_pos he] at h
      exact Except.noConfusion h
    · rw [if_neg he] at h
      by_cases hr : (remaining.filter (fun tid =>
          match lookupDep team_deps tid with
          | none => true
          | some d => !remaining.contains d)).isEmpty = true
      · rw [if_pos hr] at h
        injection h with h'
        exact h'.symm
      · rw [if_neg hr] at h
        split at h
        next levels heq => exact Except.noConfusion h
        next e heq =>
          injection h with h'
          subst h'
          exact ih _ heq

end WorkflowManager

/-! ## Claim theorems -/

/-- Claim C2: a `WorkflowOrchestrator.set` call submits a start action for a
subscription (the submission count of its event strictly increases) only
when every id in that subscription's wait-set maps to COMPLETE in the
registry as left by that call.  In particular, for C subscribed with
wait-set containing A and B, no set call made while A or B is not COMPLETE
dispatches C's start. -/
theorem c2_start_only_when_waitset_complete (st : OrchState) (k : String)
    (v : TaskStatus) (e : SubmitEvent)
    (h : st.submitted.count e < ((WorkflowOrchestrator.set st k v).submitted.count e)) :
    ∀ a ∈ e.agent_ids,
      WorkflowOrchestrator.get (WorkflowOrchestrator.set st k v) a = TaskStatus.complete := by
  intro a ha
  rcases WorkflowOrchestrator.set_count_src st k v e h with ⟨sub, hsub, htrig, hdeps, rfl⟩
  unfold WorkflowOrchestrator.dependencies_complete at hdeps
  have hne : sub.agent_ids.isEmpty = false := by
    cases hids : sub.agent_ids with
    | nil => rw [hids] at ha; cases ha
    | cons x xs => simp [hids]
  rw [if_neg (by simp [hne])] at hdeps
  have hall := List.all_eq_true.mp hdeps a ha
  unfold WorkflowOrchestrator.get
  rw [WorkflowOrchestrator.set_data]
  simpa using hall

/-- Witness for C2: a subscription of team 2 with wait-set ["A", "B"], "A"
already COMPLETE; the call writing COMPLETE to "B" dispatches its start,
and both "A" and "B" read COMPLETE afterwards. -/
theorem c2_start_only_when_waitset_complete_witness :
    WorkflowOrchestrator.get
        (WorkflowOrchestrator.set
          ⟨[("A", TaskStatus.complete)], [⟨2, ["A", "B"], false⟩], [], []⟩
          "B" TaskStatus.complete) "A" = TaskStatus.complete ∧
    WorkflowOrchestrator.get
        (WorkflowOrchestrator.set
          ⟨[("A", TaskStatus.complete)], [⟨2, ["A", "B"], false⟩], [], []⟩
          "B" TaskStatus.complete) "B" = TaskStatus.complete :=
  ⟨c2_start_only_when_waitset_complete
      ⟨[("A", TaskStatus.complete)], [⟨2, ["A", "B"], false⟩], [], []⟩
      "B" TaskStatus.complete ⟨2, Action.start, ["A", "B"]⟩ (by decide)
      "A" (by decide),
    c2_start_only_when_waitset_complete
      ⟨[("A", TaskStatus.complete)], [⟨2, ["A", "B"], false⟩], [], []⟩
      "B" TaskStatus.complete ⟨2, Action.start, ["A", "B"]⟩ (by decide)
      "B" (by decide)⟩

/-- Claim C4: `get(id)` returns PENDING for any id never recorded by a
`set` call (whatever the initial registry holds for other ids, and whatever
sequence of `set` calls ran); `get` is a total function of the model, so it
never raises. -/
theorem c4_get_defaults_to_pending (st : OrchState)
    (calls : List (String × TaskStatus)) (id : String)
    (h0 : ∀ p ∈ st.data, p.1 ≠ id) (h1 : ∀ c ∈ calls, c.1 ≠ id) :
    WorkflowOrchestrator.get (WorkflowOrchestrator.applySets st calls) id =
      TaskStatus.pending := by
  induction calls generalizing st with
  | nil =>
    exact TaskStatusDict.get_eq_pending_of_not_mem st.data id h0
  | cons c rest ih =>
    unfold WorkflowOrchestrator.applySets
    refine ih _ ?_ (fun c' hc' => h1 c' (List.mem_cons_of_mem _ hc'))
    intro p hp
    rw [WorkflowOrchestrator.set_data] at hp
    rcases TaskStatusDict.mem_dictSet _ _ _ p hp with rfl | hmem
    · exact h1 c (List.mem_cons_self _ _)
    · exact h0 p hmem

/-- Witness for C4: with "a" recorded initially and a run writing "b", the
never-written id "c" reads PENDING. -/
theorem c4_get_defaults_to_pending_witness :
    WorkflowOrchestrator.get
      (WorkflowOrchestrator.applySets
        ⟨[("a", TaskStatus.complete)], [], [], []⟩
        [("b", TaskStatus.complete), ("b", TaskStatus.error)]) "c" =
      TaskStatus.pending :=
  c4_get_defaults_to_pending
    ⟨[("a", TaskStatus.complete)], [], [], []⟩
    [("b", TaskStatus.complete), ("b", TaskStatus.error)] "c"
    (by decide) (by decide)

/-- Claim C6: an initialized team wrapper's `start` writes STARTED first,
runs the body, then writes COMPLETE and returns normally when the body
returns, or writes ERROR and re-raises when the body raises; the final
registry status of the team id matches the second write. -/
theorem c6_start_writes_started_then_outcome (st : OrchState) (teamId : String)
    (agent_ids : List String) (bodyRaises : Bool) :
    (Team.start st teamId true agent_ids bodyRaises).raisedRuntimeError = false ∧
    (Team.start st teamId true agent_ids bodyRaises).reraised = bodyRaises ∧
    (Team.start st teamId true agent_ids bodyRaises).state.log =
      st.log ++ [(teamId, TaskStatus.started),
        (teamId, if bodyRaises then TaskStatus.error else TaskStatus.complete)] ∧
    WorkflowOrchestrator.get (Team.start st teamId true agent_ids bodyRaises).state teamId =
      (if bodyRaises then TaskStatus.error else TaskStatus.complete) := by
  cases bodyRaises <;>
    simp [Team.start, WorkflowOrchestrator.set_log, WorkflowOrchestrator.get_set_self]

/-- Claim C8: after any `set` call, `all_complete` on the registry returns
true exactly when every registered id maps to COMPLETE (the registry is
non-empty after a `set`, so the emptiness guard cannot interfere): it is
false while some registered id is not COMPLETE, and becomes true at the
call completing the last outstanding id. -/
theorem c8_all_complete_iff (st : OrchState) (k : String) (v : TaskStatus) :
    TaskStatusDict.all_complete ((WorkflowOrchestrator.set st k v).data) = true ↔
      ∀ p ∈ (WorkflowOrchestrator.set st k v).data, p.2 = TaskStatus.complete := by
  rw [WorkflowOrchestrator.set_data]
  unfold TaskStatusDict.all_complete
  rw [Bool.and_eq_true]
  constructor
  · intro h p hp
    have := List.all_eq_true.mp h.2 p hp
    simpa using this
  · intro h
    refine ⟨?_, List.all_eq_true.mpr (fun p hp => by simpa using h p hp)⟩
    have hne := TaskStatusDict.dictSet_ne_nil st.data k v
    simpa using List.length_pos.mpr hne

/-- Claim C1 (refuted by the code): two overlapping `set` calls — each an
atomic locked write-and-snapshot followed by evaluation of that snapshot —
both snapshot the one-shot subscription of team 0 (wait-set ["a"]) before
either evaluation marks it triggered; both evaluations find it satisfied
and untriggered in their copies, so the start action is submitted twice.
Satisfaction is decided on the snapshot outside the lock, not in the same
critical section that marks the subscription fired. -/
theorem c1_double_fire_under_concurrent_set :
    ((WorkflowOrchestrator.runSchedule
        ⟨[], [⟨0, ["a"], false⟩], [], []⟩
        [⟨"a", TaskStatus.complete, ThreadPhase.toWrite⟩,
          ⟨"a", TaskStatus.complete, ThreadPhase.toWrite⟩]
        [0, 1, 0, 1]).1.submitted.count ⟨0, Action.start, ["a"]⟩) = 2 := by
  decide

/-- Claim C7 (refuted by the code): a one-subscription orchestrator fires
on the write completing "a"; the dispatched action receives the snapshot
copy (triggered = False) while the live record was mutated to
triggered = True, so when the action raises, `_safe_team_action`'s
equality-based lookup finds no matching record and the subscription stays
in the table (it is not removed; only its triggered flag prevents
re-invocation).  The failure itself is absorbed: `safe_team_action` is a
total function of the model, mirroring the try/except at the dispatch
boundary. -/
theorem c7_failed_action_leaves_subscription_in_table :
    (WorkflowOrchestrator.set ⟨[], [⟨0, ["a"], false⟩], [], []⟩
        "a" TaskStatus.complete).submitted = [⟨0, Action.start, ["a"]⟩] ∧
    (WorkflowOrchestrator.safe_team_action
        (WorkflowOrchestrator.set ⟨[], [⟨0, ["a"], false⟩], [], []⟩
          "a" TaskStatus.complete)
        ⟨0, ["a"], false⟩ true).team_subs = [⟨0, ["a"], true⟩] := by
  decide

/-- Claim C3, counterexample: a subscription registered (via
`subscribe_team`) with an empty wait-set and the "any_error" trigger is not
satisfied by the next `set` call of the run — nothing at all is submitted —
refuting "every subscription registered with an empty wait-set fires on the
very next set call". -/
theorem c3_counterexample_any_error_empty_waitset :
    (ObservableStore.set
        (ObservableStore.subscribe_team ⟨[], [], []⟩ 0 [] "any_error" true)
        "x" TaskStatus.pending).submitted = [] := by
  decide

/-- Claim C3 (amended): every subscription with an empty wait-set and a
start-kind trigger ("ready"/"all_complete" in `ObservableStore`; every
subscription of `WorkflowOrchestrator`, which has only start-kind
subscriptions, provided it has not already been marked triggered) has its
start action submitted by the very next `set` call, whatever id and status
that call writes; an empty-wait-set "any_error" subscription never fires. -/
theorem c3_empty_waitset_fires_next_set :
    (∀ (os : OSState) (k : String) (v : TaskStatus) (sub : OSub),
        sub ∈ os.team_subs → sub.agent_ids = [] →
        (sub.trigger = "ready" ∨ sub.trigger = "all_complete") →
        OSEvent.mk sub.team (OSAction.start sub.agent_ids)
          ∈ (ObservableStore.set os k v).submitted) ∧
    (∀ (st : OrchState) (k : String) (v : TaskStatus) (s : Sub),
        s ∈ st.team_subs → s.agent_ids = [] → s.triggered = false →
        SubmitEvent.mk s.team Action.start s.agent_ids
          ∈ (WorkflowOrchestrator.set st k v).submitted) := by
  constructor
  · intro os k v sub hmem hids htrig
    refine ObservableStore.osSet_fires_start os k v sub hmem ?_ htrig
    unfold ObservableStore.evaluate_subscription_trigger
    rw [if_pos (by simp [hids])]
    rcases htrig with h | h <;> simp [h]
  · intro st k v s hmem hids htrig
    refine WorkflowOrchestrator.set_fires st k v s hmem htrig ?_
    unfold WorkflowOrchestrator.dependencies_complete
    rw [if_pos (by simp [hids])]

/-- Witness for C3 (amended): a "ready" subscription with empty wait-set
fires on a write to an unrelated id, in both stores. -/
theorem c3_empty_waitset_fires_next_set_witness :
    OSEvent.mk 7 (OSAction.start [])
      ∈ (ObservableStore.set ⟨[], [⟨7, [], "ready", true, false⟩], []⟩
          "x" TaskStatus.pending).submitted ∧
    SubmitEvent.mk 8 Action.start []
      ∈ (WorkflowOrchestrator.set ⟨[], [⟨8, [], false⟩], [], []⟩
          "y" TaskStatus.error).submitted :=
  ⟨c3_empty_waitset_fires_next_set.1 ⟨[], [⟨7, [], "ready", true, false⟩], []⟩
      "x" TaskStatus.pending ⟨7, [], "ready", true, false⟩
      (by decide) rfl (Or.inl rfl),
    c3_empty_waitset_fires_next_set.2 ⟨[], [⟨8, [], false⟩], [], []⟩
      "y" TaskStatus.error ⟨8, [], false⟩ (by decide) rfl rfl⟩

/-- Claim C5: for an "any_error" subscription with a non-empty wait-set:
(1) any `set` call after which some watched id is ERROR submits the team's
stop action with force=True; (2) every stop submission (count increase) of
a `set` call originates from an "any_error" subscription one of whose
watched ids is ERROR afterwards, and carries force=True — so while no
watched id is ERROR, no stop is submitted; (3) every start submission
originates from a "ready"/"all_complete" subscription, so a satisfied
"any_error" subscription gets a stop instead of a start. -/
theorem c5_any_error_submits_stop (os : OSState) (k : String) (v : TaskStatus)
    (sub : OSub) (h1 : sub ∈ os.team_subs) (h2 : sub.trigger = "any_error")
    (h3 : sub.agent_ids ≠ []) :
    ((∃ a ∈ sub.agent_ids,
        TaskStatusDict.get (TaskStatusDict.dictSet os.data k v) a = TaskStatus.error) →
      OSEvent.mk sub.team (OSAction.stop true) ∈ (ObservableStore.set os k v).submitted) ∧
    (∀ t f, os.submitted.count ⟨t, OSAction.stop f⟩ <
        (ObservableStore.set os k v).submitted.count ⟨t, OSAction.stop f⟩ →
      ∃ s ∈ os.team_subs, s.team = t ∧ s.trigger = "any_error" ∧ f = true ∧
        ∃ a ∈ s.agent_ids,
          TaskStatusDict.get (TaskStatusDict.dictSet os.data k v) a = TaskStatus.error) ∧
    (∀ t ids, os.submitted.count ⟨t, OSAction.start ids⟩ <
        (ObservableStore.set os k v).submitted.count ⟨t, OSAction.start ids⟩ →
      ∃ s ∈ os.team_subs, s.team = t ∧
        (s.trigger = "ready" ∨ s.trigger = "all_complete")) := by
  refine ⟨?_, ?_, ?_⟩
  · rintro ⟨a, ha, herr⟩
    refine ObservableStore.osSet_fires_stop os k v sub h1 ?_ h2
    unfold ObservableStore.evaluate_subscription_trigger
    rw [if_neg (by simp [h3]), if_neg (by simp [h2]), if_pos (by simp [h2])]
    exact List.any_eq_true.mpr ⟨a, ha, by simp [herr]⟩
  · intro t f h
    rcases ObservableStore.osSet_count_src os k v _ h with ⟨s, hs, heval, hcase⟩
    rcases hcase with ⟨_, habs⟩ | ⟨htrig, hev⟩
    · cases habs
    · injection hev with hteam hact
      injection hact with hforce
      refine ⟨s, hs, hteam.symm, htrig, hforce, ?_⟩
      unfold ObservableStore.evaluate_subscription_trigger at heval
      by_cases hemp : s.agent_ids.isEmpty = true
      · rw [if_pos hemp] at heval
        rw [Bool.or_eq_true_iff] at heval
        rcases heval with hx | hx <;> simp [htrig] at hx
      · rw [if_neg hemp, if_neg (by simp [htrig]), if_pos (by simp [htrig])] at heval
        rcases List.any_eq_true.mp heval with ⟨a, ha, herr⟩
        exact ⟨a, ha, by simpa using herr⟩
  · intro t ids h
    rcases ObservableStore.osSet_count_src os k v _ h with ⟨s, hs, heval, hcase⟩
    rcases hcase with ⟨htrig, hev⟩ | ⟨_, habs⟩
    · injection hev with hteam _
      exact ⟨s, hs, hteam.symm, htrig⟩
    · cases habs

/-- Witness for C5: team 3 watches ["a"] with "any_error"; the call
recording ERROR for "a" submits its stop(force=True). -/
theorem c5_any_error_submits_stop_witness :
    OSEvent.mk 3 (OSAction.stop true)
      ∈ (ObservableStore.set ⟨[], [⟨3, ["a"], "any_error", true, false⟩], []⟩
          "a" TaskStatus.error).submitted :=
  (c5_any_error_submits_stop ⟨[], [⟨3, ["a"], "any_error", true, false⟩], []⟩
      "a" TaskStatus.error ⟨3, ["a"], "any_error", true, false⟩
      (by decide) rfl (by decide)).1
    ⟨"a", by decide, by decide⟩

/-- Claim C10: `ObservableStore.set` evaluates every subscription in the
table without consulting its `triggered` flag — the statement below has no
hypothesis on `sub.triggered`, so it applies equally to already-fired
records — hence a subscription with one_shot=False whose trigger condition
holds has its start action submitted again by this call (the submission
count strictly increases), and when the table holds only non-one-shot
subscriptions it is left unchanged, so the same resubmission recurs on
every subsequent satisfied `set` call. -/
theorem c10_non_one_shot_resubmits_every_set (os : OSState) (k : String)
    (v : TaskStatus) (sub : OSub) (h1 : sub ∈ os.team_subs)
    (h2 : sub.trigger = "ready" ∨ sub.trigger = "all_complete")
    (h3 : ObservableStore.evaluate_subscription_trigger sub
        (TaskStatusDict.dictSet os.data k v) = true) :
    os.submitted.count ⟨sub.team, OSAction.start sub.agent_ids⟩ + 1 ≤
      (ObservableStore.set os k v).submitted.count
        ⟨sub.team, OSAction.start sub.agent_ids⟩ ∧
    ((∀ s ∈ os.team_subs, s.one_shot = false) →
      (ObservableStore.set os k v).team_subs = os.team_subs) :=
  ⟨ObservableStore.osSet_count_fires os k v sub h1 h3 h2,
    fun hall => ObservableStore.osSet_subs_unchanged os k v hall⟩

/-- Witness for C10: team 5's non-one-shot "ready" subscription on ["d"]
(already COMPLETE, so already satisfied and previously fired: triggered is
irrelevant) is submitted again by an unrelated write, and the table is
unchanged. -/
theorem c10_non_one_shot_resubmits_every_set_witness :
    [⟨5, OSAction.start ["d"]⟩].count
        (OSEvent.mk 5 (OSAction.start ["d"])) + 1 ≤
      (ObservableStore.set
        ⟨[("d", TaskStatus.complete)], [⟨5, ["d"], "ready", false, true⟩],
          [⟨5, OSAction.start ["d"]⟩]⟩ "x" TaskStatus.pending).submitted.count
        (OSEvent.mk 5 (OSAction.start ["d"])) ∧
    (ObservableStore.set
        ⟨[("d", TaskStatus.complete)], [⟨5, ["d"], "ready", false, true⟩],
          [⟨5, OSAction.start ["d"]⟩]⟩ "x" TaskStatus.pending).team_subs =
      [⟨5, ["d"], "ready", false, true⟩] :=
  ⟨(c10_non_one_shot_resubmits_every_set
      ⟨[("d", TaskStatus.complete)], [⟨5, ["d"], "ready", false, true⟩],
        [⟨5, OSAction.start ["d"]⟩]⟩ "x" TaskStatus.pending
      ⟨5, ["d"], "ready", false, true⟩ (by decide) (Or.inl rfl) (by decide)).1,
    (c10_non_one_shot_resubmits_every_set
      ⟨[("d", TaskStatus.complete)], [⟨5, ["d"], "ready", false, true⟩],
        [⟨5, OSAction.start ["d"]⟩]⟩ "x" TaskStatus.pending
      ⟨5, ["d"], "ready", false, true⟩ (by decide) (Or.inl rfl) (by decide)).2
      (by decide)⟩

/-- Claim C9, counterexample: on the cyclic graph t1 → t2 → t1 the doc-gen
planner `get_dependency_order` raises its fatal error, but the error is the
fixed message "Circular dependency detected in workflow", which does not
contain the stranded ids t1 and t2 — refuting "reported with the ids of the
stranded tasks" for this planner. -/
theorem c9_counterexample_fixed_cycle_message :
    WorkflowManager.get_dependency_order [("t1", some "t2"), ("t2", some "t1")] =
      Except.error "Circular dependency detected in workflow" ∧
    WorkflowManager.strOccurs "t1" "Circular dependency detected in workflow" = false ∧
    WorkflowManager.strOccurs "t2" "Circular dependency detected in workflow" = false :=
  ⟨rfl, by decide, by decide⟩

/-- Claim C9 (amended): at a planning step where no task is ready while
unresolved tasks remain, the old batch planner `get_execution_phases`
raises a fatal error carrying exactly the stranded ids and produces no
waves past that point; the doc-gen planner `get_dependency_order` also
raises a fatal error and produces no levels, but its message is always the
fixed cycle string, without the stranded ids. -/
theorem c9_stranded_step_raises (tree : List WorkflowManager.OldTeam)
    (completed : List String) (fuel : Nat) (teams : WorkflowManager.TeamDeps)
    (msg : String) (hlen : completed.length < tree.length)
    (hready : WorkflowManager.readyTeams tree completed = [])
    (hstr : WorkflowManager.strandedIds tree completed ≠ [])
    (herr : WorkflowManager.get_dependency_order teams = Except.error msg) :
    WorkflowManager.phasesLoop tree completed (fuel + 1) =
      Except.error (WorkflowManager.strandedIds tree completed) ∧
    msg = "Circular dependency detected in workflow" := by
  constructor
  · unfold WorkflowManager.phasesLoop
    rw [if_pos hlen, hready]
    cases hs : WorkflowManager.strandedIds tree completed with
    | nil => exact absurd hs hstr
    | cons a as => simp [hs]
  · exact WorkflowManager.depOrderLoop_error_msg _ _ _ _ herr

/-- Witness for C9 (amended): the old planner on the cyclic two-team tree
errors with both stranded keys; the doc-gen planner's error message on the
same cycle is the fixed string. -/
theorem c9_stranded_step_raises_witness :
    WorkflowManager.phasesLoop
        [⟨"t1_0", "t1", ["t2"]⟩, ⟨"t2_1", "t2", ["t1"]⟩] [] 1 =
      Except.error ["t1_0", "t2_1"] ∧
    ("Circular dependency detected in workflow" : String) =
      "Circular dependency detected in workflow" :=
  (c9_stranded_step_raises
    [⟨"t1_0", "t1", ["t2"]⟩, ⟨"t2_1", "t2", ["t1"]⟩] [] 0
    [("t1", some "t2"), ("t2", some "t1")]
    "Circular dependency detected in workflow"
    (by decide) (by decide) (by decide) rfl)

end RaqAi
